import Mathlib

/-!
Shallow embedding of `main.py` of the SEO-Keywords repository: a single-file
pipeline that fetches tweets, analyzes them with an LLM, derives keywords,
scores them against the DataForSEO API and assembles a JSON report.

External HTTP calls are modelled as explicit parameters (`Option` of the
payload the call would return; `none` is a failed call, every failure is
caught at the call site in the source).  Python `str` is modelled as `String`
restricted to its character list (`len` = number of characters,
`str.lower` = ASCII lower-casing, exactly what `Char.toLower` implements);
Python `float` is modelled as `Rat`; Python dict fields that may be absent
or `None` are modelled as `Option` fields.  The Python `list.sort` is a stable
sort, and the output of a stable sort is uniquely determined by the comparator,
so it is modelled by `List.insertionSort` (stable and kernel-computable).
-/

namespace SEOKeywords

/-! ### Python string primitives -/

/-- Python `s.lower()` (ASCII, which covers all data this repo handles):
map `Char.toLower` over the characters. -/
def pyLower (s : String) : String :=
  ⟨s.data.map Char.toLower⟩

/-- Python `s[:n]` on a string: the first `n` characters. -/
def pyTruncate (n : Nat) (s : String) : String :=
  ⟨s.data.take n⟩

/-- Python `s[a:b]` for `0 ≤ a ≤ b`: drop `a` characters, keep `b - a`. -/
def pySlice (s : String) (a b : Nat) : String :=
  ⟨(s.data.drop a).take (b - a)⟩

/-- Index of the first occurrence of `c`, counting from `i`. -/
def findCharFrom (c : Char) : List Char → Nat → Option Nat
  | [], _ => none
  | x :: xs, i => if x = c then some i else findCharFrom c xs (i + 1)

/-- Python `s.find(c)`: index of the first occurrence, `-1` if absent. -/
def pyFind (s : String) (c : Char) : Int :=
  match findCharFrom c s.data 0 with
  | none => -1
  | some i => i

/-- Python `s.rfind(c)`: index of the last occurrence, `-1` if absent. -/
def pyRFind (s : String) (c : Char) : Int :=
  match findCharFrom c s.data.reverse 0 with
  | none => -1
  | some i => ((s.data.length - 1 - i : Nat) : Int)

/-- The character `{` (written by code point to keep it out of literals). -/
def lbrace : Char := Char.ofNat 123

/-- The character `}` (written by code point to keep it out of literals). -/
def rbrace : Char := Char.ofNat 125

/-- Python `int(q)` on a float: truncation toward zero. -/
def pyInt (q : Rat) : Int :=
  if 0 ≤ q then ⌊q⌋ else ⌈q⌉

/-- Python `round(q)` to an integer: round half to even. -/
def pyRound (q : Rat) : Int :=
  if q - ⌊q⌋ < 1 / 2 then ⌊q⌋
  else if (1 / 2 : Rat) < q - ⌊q⌋ then ⌊q⌋ + 1
  else if ⌊q⌋ % 2 = 0 then ⌊q⌋ else ⌊q⌋ + 1

/-- Python stable sort with `reverse=True` and key `k`:
descending, equal keys keep their original order.  The output of a stable sort is
determined by the comparator, so the stable `insertionSort` is extensionally
the sort the source performs. -/
def sortByDesc {α : Type} {β : Type} [LinearOrder β] (k : α → β) (l : List α) : List α :=
  List.insertionSort (fun a b => k b ≤ k a) l

/-! ### Data model -/

/-- A tweet as consumed by the pipeline (`data["tweets"]` entries,
fields read with `.get` and these defaults). -/
structure Tweet where
  text : String
  likeCount : Nat
  retweetCount : Nat
  bookmarkCount : Nat
  author : String
  hashtags : List String
deriving DecidableEq

/-- The `engagement` sub-object of a processed tweet. -/
structure TweetEngagement where
  likes : Nat
  retweets : Nat
  score : Nat
deriving DecidableEq

/-- An entry of `top_trending_tweets` in the report. -/
structure ProcessedTweet where
  rank : Nat
  text : String
  engagement : TweetEngagement
  author : String
  hashtags : List String
deriving DecidableEq

/-- The parsed LLM analysis in the shape `extract_keywords_from_tweets` and
`process_tweets` read it: the four recognized array-valued keys, each
defaulting to `[]` when absent.  `none` stands for the falsy empty dict
`\x7b\x7d`; the `raw_response`-only dict is `some` with all four lists empty. -/
structure InsightBundle where
  topics : List String
  trends : List String
  technologies : List String
  keywords : List String
deriving DecidableEq

/-- A keyword record as built in `analyze_keywords_with_dataforseo`
(lines 198-204): every field comes from a `.get` and may be `None`. -/
structure KeywordRecord where
  keyword : Option String
  search_volume : Option Int
  competition : Option Rat
  cpc : Option Rat
  difficulty : Option Int
deriving DecidableEq

/-- A keyword record after `process_tweets` possibly set
`kw["opportunity_score"]`; `none` means the key is absent. -/
structure ScoredKeywordRecord where
  base : KeywordRecord
  opportunity_score : Option Int
deriving DecidableEq

/-- The `summary` object of the report. -/
structure ReportSummary where
  total_tweets : Nat
  unique_hashtags : Nat
  total_engagement : Nat
  keywords_analyzed : Nat
deriving DecidableEq

/-- The `ai_insights` object of the report. -/
structure AIInsights where
  topics : List String
  emerging_trends : List String
  key_technologies : List String
  recommended_keywords : List String
deriving DecidableEq

/-- The `seo_analysis` object of the report. -/
structure SEOAnalysis where
  best_opportunities : List ScoredKeywordRecord
  all_keyword_data : List ScoredKeywordRecord
deriving DecidableEq

/-- An entry of `top_hashtags` in the report. -/
structure HashtagEntry where
  tag : String
  mentions : Nat
deriving DecidableEq

/-- The report built by `process_tweets` (`generated_at`, a wall-clock
timestamp, is outside the model). -/
structure Report where
  summary : ReportSummary
  ai_insights : AIInsights
  seo_analysis : SEOAnalysis
  top_trending_tweets : List ProcessedTweet
  top_hashtags : List HashtagEntry

/-! ### Stage 2: `analyze_with_claude` (reply parsing) -/

/-- The three shapes `analyze_with_claude` can return: a parsed mapping,
the dict `\x7b"raw_response": content\x7d`, or the empty dict `\x7b\x7d`. -/
inductive ClaudeOutcome (μ : Type) where
  | parsed : μ → ClaudeOutcome μ
  | rawResponse : String → ClaudeOutcome μ
  | emptyDict : ClaudeOutcome μ
deriving DecidableEq

/-- Lines 112-125 of `main.py`: `start = content.find("\x7b")`,
`end = content.rfind("\x7d") + 1`; if `start >= 0 and end > start`, parse
`content[start:end]` (`jsonLoads` models `json.loads`, `none` is a
`JSONDecodeError`); otherwise or on parse failure fall back to
`raw_response`. -/
def parseClaudeReply {μ : Type} (jsonLoads : String → Option μ) (content : String) :
    ClaudeOutcome μ :=
  let start := pyFind content lbrace
  let stop := pyRFind content rbrace + 1
  if 0 ≤ start ∧ start < stop then
    match jsonLoads (pySlice content start.toNat stop.toNat) with
    | some m => ClaudeOutcome.parsed m
    | none => ClaudeOutcome.rawResponse content
  else ClaudeOutcome.rawResponse content

/-- `analyze_with_claude`, from the reply text on: `apiReply = none` is a
failed API call (any exception in the outer `try`, caught at line 127,
returns `\x7b\x7d`); `some content` is the reply text `content[0].text`. -/
def analyze_with_claude {μ : Type} (jsonLoads : String → Option μ)
    (apiReply : Option String) : ClaudeOutcome μ :=
  match apiReply with
  | none => ClaudeOutcome.emptyDict
  | some content => parseClaudeReply jsonLoads content

/-! ### Stage 3: `extract_keywords_from_tweets` -/

/-- One `set.update` step: Python set membership, modelled as an
insertion-ordered duplicate-free list. -/
def insertUnique (l : List String) (s : String) : List String :=
  if s ∈ l then l else l ++ [s]

/-- Add the lower-cased entries of `ss` to the set `acc`. -/
def addLowered (acc : List String) (ss : List String) : List String :=
  ss.foldl (fun a s => insertUnique a (pyLower s)) acc

/-- Lines 131-148 of `main.py`: union of lower-cased tweet hashtags (empty
ones are falsy and skipped) and, when the analysis dict is truthy, its
`keywords`, `topics` and `technologies` arrays; keep length > 2 and < 50;
cap at 20. -/
def extract_keywords_from_tweets (tweets : List Tweet)
    (claude_analysis : Option InsightBundle) : List String :=
  let fromTags := tweets.foldl
    (fun acc t => addLowered acc (t.hashtags.filter (fun h => h != ""))) []
  let withClaude :=
    match claude_analysis with
    | none => fromTags
    | some a => addLowered (addLowered (addLowered fromTags a.keywords) a.topics) a.technologies
  (withClaude.filter (fun k => decide (2 < k.length) && decide (k.length < 50))).take 20

/-! ### Stage 4: `analyze_keywords_with_dataforseo` -/

/-- The `keyword_info` sub-dict of a DataForSEO item. -/
structure KeywordInfo where
  search_volume : Option Int
  competition : Option Rat
  cpc : Option Rat
deriving DecidableEq

/-- The `keyword_properties` sub-dict of a DataForSEO item. -/
structure KeywordProperties where
  keyword_difficulty : Option Int
deriving DecidableEq

/-- One entry of `item["items"]` in the DataForSEO response. -/
structure DFSItemEntry where
  keyword : Option String
  keyword_info : Option KeywordInfo
  keyword_properties : Option KeywordProperties
deriving DecidableEq

/-- One entry of `task["result"]`. -/
structure DFSResultBlock where
  items : Option (List DFSItemEntry)
deriving DecidableEq

/-- One entry of `result["tasks"]`. -/
structure DFSTask where
  result : Option (List DFSResultBlock)
deriving DecidableEq

/-- The DataForSEO response body. -/
structure DFSResponse where
  tasks : Option (List DFSTask)
deriving DecidableEq

/-- Lines 198-204: build a flat record from an item, every field through
`.get` with a `\x7b\x7d` fallback for the nested dicts. -/
def toKeywordRecord (kw : DFSItemEntry) : KeywordRecord :=
  { keyword := kw.keyword
    search_volume := (kw.keyword_info.getD ⟨none, none, none⟩).search_volume
    competition := (kw.keyword_info.getD ⟨none, none, none⟩).competition
    cpc := (kw.keyword_info.getD ⟨none, none, none⟩).cpc
    difficulty := (kw.keyword_properties.getD ⟨none⟩).keyword_difficulty }

/-- Python `kw.get("search_volume") or 0`: `None` and `0` both give `0`. -/
def volumeOf (kw : KeywordRecord) : Int :=
  kw.search_volume.getD 0

/-- Lines 191-207: flatten `tasks[].result[].items[]` (a falsy/missing level
contributes nothing, exactly as the truthiness guards do), cap each `items`
list at 30, and sort descending by search volume with `None` as 0. -/
def extractKeywordData (resp : DFSResponse) : List KeywordRecord :=
  sortByDesc volumeOf
    ((resp.tasks.getD []).flatMap fun task =>
      (task.result.getD []).flatMap fun item =>
        ((item.items.getD []).take 30).map toKeywordRecord)

/-- `analyze_keywords_with_dataforseo`: `login` is `DATAFORSEO_LOGIN`
(`none` when the environment variable is unset), `response = none` is a
failed HTTP call (caught at line 212).  The second component records
whether the HTTP request was issued. -/
def analyze_keywords_with_dataforseo (login : Option String)
    (keywords : List String) (response : Option DFSResponse) :
    List KeywordRecord × Bool :=
  if keywords = [] then ([], false)
  else if login = some "your_email@example.com" then ([], false)
  else
    match response with
    | none => ([], true)
    | some resp => (extractKeywordData resp, true)

/-! ### Stage 5: `process_tweets` -/

/-- One iteration of the loop at lines 224-238 (`i` is the 0-based index). -/
def mkProcessedTweet (i : Nat) (t : Tweet) : ProcessedTweet :=
  { rank := i + 1
    text := pyTruncate 200 t.text
    engagement :=
      { likes := t.likeCount
        retweets := t.retweetCount
        score := t.likeCount + t.retweetCount * 2 }
    author := t.author
    hashtags := t.hashtags.take 5 }

/-- The loop at lines 224-238, carrying the running index. -/
def buildProcessed : Nat → List Tweet → List ProcessedTweet
  | _, [] => []
  | i, t :: ts => mkProcessedTweet i t :: buildProcessed (i + 1) ts

/-- One step of the frequency loop at lines 244-246 over a dict modelled as
an insertion-ordered association list. -/
def bumpTag : List (String × Nat) → String → List (String × Nat)
  | [], tag => [(tag, 1)]
  | (t, c) :: rest, tag =>
    if t = tag then (t, c + 1) :: rest else (t, c) :: bumpTag rest tag

/-- The hashtag frequency dict built at lines 244-246. -/
def hashtagFreq (tags : List String) : List (String × Nat) :=
  tags.foldl bumpTag []

/-- Lines 257-264: the opportunity score of a record with positive volume. -/
def opportunityScore (volume : Int) (competition : Option Rat) : Int :=
  match competition with
  | some c => if c < 1 then pyInt ((volume : Rat) * (1 - c)) else volume
  | none => volume

/-- Lines 253-267 applied to one record: the in-place
`kw["opportunity_score"] = score` becomes a functional field update;
records with volume ≤ 0 are left without the key. -/
def scoreRecord (kw : KeywordRecord) : ScoredKeywordRecord :=
  if 0 < volumeOf kw then
    { base := kw, opportunity_score := some (opportunityScore (volumeOf kw) kw.competition) }
  else
    { base := kw, opportunity_score := none }

/-- The keyword list after the scoring loop; because the loop mutates the
dicts in place, this is also what `all_keyword_data` holds. -/
def scoredRecords (l : List KeywordRecord) : List ScoredKeywordRecord :=
  l.map scoreRecord

/-- `best_keywords` after the loop and the sort at line 270: the records
with positive volume, descending by `opportunity_score` (present on all of
them; the `.get(..., 0)` default never fires). -/
def bestKeywords (l : List KeywordRecord) : List ScoredKeywordRecord :=
  sortByDesc (fun s => s.opportunity_score.getD 0)
    ((scoredRecords l).filter (fun s => decide (0 < volumeOf s.base)))

/-- `process_tweets` (lines 216-295). -/
def process_tweets (tweets : List Tweet) (claude_analysis : Option InsightBundle)
    (dataforseo_keywords : List KeywordRecord) : Report :=
  let firstTen := tweets.take 10
  let processed := buildProcessed 0 firstTen
  let all_hashtags := firstTen.flatMap (fun t => t.hashtags)
  let sortedProcessed := sortByDesc (fun p => p.engagement.score) processed
  let freq := hashtagFreq all_hashtags
  let top := (sortByDesc (fun p : String × Nat => p.2) freq).take 10
  let claude := claude_analysis.getD ⟨[], [], [], []⟩
  { summary :=
      { total_tweets := tweets.length
        unique_hashtags := freq.length
        total_engagement := (sortedProcessed.map (fun p => p.engagement.score)).sum
        keywords_analyzed := dataforseo_keywords.length }
    ai_insights :=
      { topics := claude.topics
        emerging_trends := claude.trends
        key_technologies := claude.technologies
        recommended_keywords := claude.keywords }
    seo_analysis :=
      { best_opportunities := (bestKeywords dataforseo_keywords).take 10
        all_keyword_data := scoredRecords dataforseo_keywords }
    top_trending_tweets := sortedProcessed
    top_hashtags := top.map (fun p => { tag := p.1, mentions := p.2 }) }

/-! ### General lemmas: characters and lower-casing -/

/-- `Char.ofNat` on a scalar value below the surrogate range keeps it. -/
theorem charOfNat_toNat {n : Nat} (h : n < 55296) : (Char.ofNat n).toNat = n := by
  have hv : n.isValidChar := Or.inl h
  simp [Char.ofNat, hv, Char.ofNatAux, Char.toNat, UInt32.toNat, BitVec.toNat_ofNatLt]

/-- ASCII lower-casing is idempotent on characters. -/
theorem toLower_idem (c : Char) : (Char.toLower c).toLower = Char.toLower c := by
  unfold Char.toLower
  by_cases h : 65 ≤ c.toNat ∧ c.toNat ≤ 90
  · rw [if_pos h]
    have hv : (Char.ofNat (c.toNat + 32)).toNat = c.toNat + 32 :=
      charOfNat_toNat (by omega)
    rw [if_neg]
    rw [hv]
    omega
  · rw [if_neg h, if_neg h]

/-- Mapping `Char.toLower` twice is mapping it once. -/
theorem map_toLower_idem (l : List Char) :
    (l.map Char.toLower).map Char.toLower = l.map Char.toLower := by
  induction l with
  | nil => rfl
  | cons c cs ih => simp only [List.map_cons, ih, toLower_idem]

/-- `pyLower` is idempotent. -/
theorem pyLower_idem (s : String) : pyLower (pyLower s) = pyLower s := by
  unfold pyLower
  exact congrArg String.mk (map_toLower_idem s.data)

/-! ### General lemmas: the stable descending sort -/

theorem sortByDesc_perm {α β : Type} [LinearOrder β] (k : α → β) (l : List α) :
    (sortByDesc k l).Perm l :=
  List.perm_insertionSort _ l

theorem mem_sortByDesc {α β : Type} [LinearOrder β] {k : α → β} {l : List α} {x : α} :
    x ∈ sortByDesc k l ↔ x ∈ l :=
  (sortByDesc_perm k l).mem_iff

theorem sortByDesc_pairwise {α β : Type} [LinearOrder β] (k : α → β) (l : List α) :
    (sortByDesc k l).Pairwise (fun a b => k b ≤ k a) := by
  haveI : IsTotal α (fun a b => k b ≤ k a) := ⟨fun a b => le_total (k b) (k a)⟩
  haveI : IsTrans α (fun a b => k b ≤ k a) := ⟨fun _ _ _ hab hbc => le_trans hbc hab⟩
  exact List.sorted_insertionSort _ l

/-- In a list sorted descending by `k`, everything dropped is bounded by
everything kept. -/
theorem sorted_drop_le_take {α β : Type} [LinearOrder β] {k : α → β} {l : List α}
    (h : l.Pairwise (fun a b => k b ≤ k a)) (n : Nat) :
    ∀ x ∈ l.drop n, ∀ y ∈ l.take n, k x ≤ k y := by
  have hsplit : l.take n ++ l.drop n = l := List.take_append_drop n l
  rw [← hsplit] at h
  have h3 := (List.pairwise_append.mp h).2.2
  exact fun x hx y hy => h3 y hy x hx

/-! ### General lemmas: the processed-tweet loop -/

theorem mem_buildProcessed {p : ProcessedTweet} :
    ∀ {i : Nat} {l : List Tweet}, p ∈ buildProcessed i l →
      ∃ t ∈ l, ∃ j, p = mkProcessedTweet j t := by
  intro i l
  induction l generalizing i with
  | nil => intro h; cases h
  | cons t ts ih =>
    intro h
    rcases List.mem_cons.mp h with h' | h'
    · exact ⟨t, List.mem_cons_self t ts, i, h'⟩
    · obtain ⟨u, hu, j, hj⟩ := ih h'
      exact ⟨u, List.mem_cons_of_mem t hu, j, hj⟩

theorem buildProcessed_map_score (i : Nat) (l : List Tweet) :
    (buildProcessed i l).map (fun p => p.engagement.score)
      = l.map (fun t => t.likeCount + t.retweetCount * 2) := by
  induction l generalizing i with
  | nil => rfl
  | cons t ts ih => simp only [buildProcessed, List.map_cons, ih, mkProcessedTweet]

/-! ### General lemmas: the hashtag-frequency dict -/

/-- The keys of the association list modelling the frequency dict. -/
def keysOf (l : List (String × Nat)) : List String :=
  l.map Prod.fst

/-- Dict lookup with default 0 (first matching key). -/
def freqCount : List (String × Nat) → String → Nat
  | [], _ => 0
  | (tag, c) :: rest, t => if tag = t then c else freqCount rest t

theorem freqCount_bumpTag (l : List (String × Nat)) (tag t : String) :
    freqCount (bumpTag l tag) t = freqCount l t + (if t = tag then 1 else 0) := by
  induction l with
  | nil =>
    by_cases h : tag = t
    · subst h; simp [bumpTag, freqCount]
    · have h' : ¬ t = tag := fun hh => h hh.symm
      simp [bumpTag, freqCount, h, h']
  | cons p rest ih =>
    obtain ⟨a, c⟩ := p
    by_cases hat : a = tag
    · subst hat
      by_cases hta : a = t
      · subst hta; simp [bumpTag, freqCount]
      · have h' : ¬ t = a := fun hh => hta hh.symm
        simp [bumpTag, freqCount, hta, h']
    · by_cases hta : a = t
      · subst hta
        have h' : ¬ a = tag := hat
        simp [bumpTag, freqCount, h']
      · simp [bumpTag, freqCount, hat, hta, ih]

theorem mem_keysOf_bumpTag {l : List (String × Nat)} {tag t : String} :
    t ∈ keysOf (bumpTag l tag) ↔ t ∈ keysOf l ∨ t = tag := by
  induction l with
  | nil => simp [bumpTag, keysOf]
  | cons p rest ih =>
    obtain ⟨a, c⟩ := p
    have hcons : ∀ (x : String) (n : Nat) (r : List (String × Nat)),
        keysOf ((x, n) :: r) = x :: keysOf r := fun _ _ _ => rfl
    by_cases hat : a = tag
    · subst hat
      have hb : bumpTag ((a, c) :: rest) a = (a, c + 1) :: rest := by
        simp [bumpTag]
      rw [hb, hcons, hcons]
      simp only [List.mem_cons]
      tauto
    · have hb : bumpTag ((a, c) :: rest) tag = (a, c) :: bumpTag rest tag := by
        simp [bumpTag, hat]
      rw [hb, hcons, hcons]
      simp only [List.mem_cons]
      rw [ih]
      tauto

theorem nodup_keysOf_bumpTag {l : List (String × Nat)} {tag : String}
    (h : (keysOf l).Nodup) : (keysOf (bumpTag l tag)).Nodup := by
  induction l with
  | nil => simp [bumpTag, keysOf]
  | cons p rest ih =>
    obtain ⟨a, c⟩ := p
    have hpair := List.nodup_cons.mp (show (a :: keysOf rest).Nodup from h)
    by_cases hat : a = tag
    · subst hat
      have hb : bumpTag ((a, c) :: rest) a = (a, c + 1) :: rest := by
        simp [bumpTag]
      rw [hb]
      exact h
    · have hb : bumpTag ((a, c) :: rest) tag = (a, c) :: bumpTag rest tag := by
        simp [bumpTag, hat]
      rw [hb]
      have hmem : a ∉ keysOf (bumpTag rest tag) := by
        rw [mem_keysOf_bumpTag]
        rintro (hmem' | rfl)
        · exact hpair.1 hmem'
        · exact hat rfl
      exact List.nodup_cons.mpr ⟨hmem, ih hpair.2⟩

theorem freqCount_foldl (tags : List String) :
    ∀ (acc : List (String × Nat)) (t : String),
      freqCount (tags.foldl bumpTag acc) t = freqCount acc t + tags.count t := by
  induction tags with
  | nil => simp
  | cons tag rest ih =>
    intro acc t
    rw [List.foldl_cons, ih, freqCount_bumpTag, List.count_cons]
    by_cases h : t = tag
    · subst h
      simp only [beq_self_eq_true, if_true]
      omega
    · have h2 : ¬ tag = t := fun hh => h hh.symm
      simp only [beq_iff_eq, if_neg h2, if_neg h]
      omega

theorem mem_keysOf_foldl (tags : List String) :
    ∀ (acc : List (String × Nat)) (t : String),
      t ∈ keysOf (tags.foldl bumpTag acc) ↔ t ∈ keysOf acc ∨ t ∈ tags := by
  induction tags with
  | nil => simp
  | cons tag rest ih =>
    intro acc t
    rw [List.foldl_cons, ih, mem_keysOf_bumpTag]
    constructor
    · rintro ((h | rfl) | h)
      · exact Or.inl h
      · simp
      · simp [h]
    · rintro (h | h)
      · exact Or.inl (Or.inl h)
      · rcases List.mem_cons.mp h with rfl | h'
        · exact Or.inl (Or.inr rfl)
        · exact Or.inr h'

theorem nodup_keysOf_foldl (tags : List String) :
    ∀ (acc : List (String × Nat)), (keysOf acc).Nodup →
      (keysOf (tags.foldl bumpTag acc)).Nodup := by
  induction tags with
  | nil => intro acc h; simpa using h
  | cons tag rest ih =>
    intro acc h
    rw [List.foldl_cons]
    exact ih _ (nodup_keysOf_bumpTag h)

theorem freqCount_hashtagFreq (tags : List String) (t : String) :
    freqCount (hashtagFreq tags) t = tags.count t := by
  unfold hashtagFreq
  rw [freqCount_foldl]
  simp [freqCount]

theorem mem_keysOf_hashtagFreq {tags : List String} {t : String} :
    t ∈ keysOf (hashtagFreq tags) ↔ t ∈ tags := by
  unfold hashtagFreq
  rw [mem_keysOf_foldl]
  simp [keysOf]

theorem nodup_keysOf_hashtagFreq (tags : List String) :
    (keysOf (hashtagFreq tags)).Nodup :=
  nodup_keysOf_foldl tags [] (by simp [keysOf])

/-- The frequency dict has one entry per distinct tag. -/
theorem length_hashtagFreq (tags : List String) :
    (hashtagFreq tags).length = tags.toFinset.card := by
  have hk : (hashtagFreq tags).length = (keysOf (hashtagFreq tags)).length :=
    (List.length_map _ _).symm
  have hset : (keysOf (hashtagFreq tags)).toFinset = tags.toFinset := by
    ext x
    simp [List.mem_toFinset, mem_keysOf_hashtagFreq]
  rw [hk, ← List.toFinset_card_of_nodup (nodup_keysOf_hashtagFreq tags), hset]

/-- With duplicate-free keys, a stored entry is what lookup returns. -/
theorem freqCount_of_mem : ∀ {l : List (String × Nat)}, (keysOf l).Nodup →
    ∀ {tag : String} {c : Nat}, (tag, c) ∈ l → freqCount l tag = c := by
  intro l
  induction l with
  | nil => intro _ _ _ h; cases h
  | cons p rest ih =>
    obtain ⟨a, b⟩ := p
    intro hnd tag c h
    have hnd' : (keysOf rest).Nodup := (List.nodup_cons.mp (by simpa [keysOf] using hnd)).2
    rcases List.mem_cons.mp h with h' | h'
    · injection h' with h1 h2
      subst h1
      subst h2
      simp [freqCount]
    · have htag : tag ∈ keysOf rest := by
        have := List.mem_map_of_mem Prod.fst h'
        simpa [keysOf] using this
      have hne : a ≠ tag := by
        intro hh
        exact (List.nodup_cons.mp (by simpa [keysOf] using hnd)).1 (hh ▸ htag)
      simp [freqCount, hne, ih hnd' h']

/-! ### General lemmas: the keyword set -/

theorem mem_insertUnique {l : List String} {s t : String} :
    t ∈ insertUnique l s ↔ t ∈ l ∨ t = s := by
  unfold insertUnique
  by_cases h : s ∈ l
  · rw [if_pos h]
    constructor
    · exact Or.inl
    · rintro (hh | rfl)
      · exact hh
      · exact h
  · rw [if_neg h]
    simp

theorem nodup_insertUnique {l : List String} {s : String} (h : l.Nodup) :
    (insertUnique l s).Nodup := by
  unfold insertUnique
  by_cases hs : s ∈ l
  · rwa [if_pos hs]
  · rw [if_neg hs]
    simp [List.nodup_append, h, hs]

theorem all_insertUnique {P : String → Prop} {l : List String} {s : String}
    (hl : ∀ x ∈ l, P x) (hs : P s) : ∀ x ∈ insertUnique l s, P x := by
  intro x hx
  rcases mem_insertUnique.mp hx with h | rfl
  · exact hl x h
  · exact hs

theorem nodup_addLowered (ss : List String) :
    ∀ (acc : List String), acc.Nodup → (addLowered acc ss).Nodup := by
  induction ss with
  | nil => intro acc h; exact h
  | cons s rest ih => intro acc h; exact ih _ (nodup_insertUnique h)

theorem lowered_addLowered (ss : List String) :
    ∀ (acc : List String), (∀ x ∈ acc, pyLower x = x) →
      ∀ x ∈ addLowered acc ss, pyLower x = x := by
  induction ss with
  | nil => intro acc h; exact h
  | cons s rest ih => intro acc h; exact ih _ (all_insertUnique h (pyLower_idem s))

theorem nodup_foldl_addLowered {γ : Type} (f : γ → List String) (l : List γ) :
    ∀ (acc : List String), acc.Nodup →
      (l.foldl (fun a t => addLowered a (f t)) acc).Nodup := by
  induction l with
  | nil => intro acc h; exact h
  | cons t rest ih => intro acc h; exact ih _ (nodup_addLowered _ _ h)

theorem lowered_foldl_addLowered {γ : Type} (f : γ → List String) (l : List γ) :
    ∀ (acc : List String), (∀ x ∈ acc, pyLower x = x) →
      ∀ x ∈ l.foldl (fun a t => addLowered a (f t)) acc, pyLower x = x := by
  induction l with
  | nil => intro acc h; exact h
  | cons t rest ih => intro acc h; exact ih _ (lowered_addLowered _ _ h)

/-! ### Claim theorems -/

/-- C5 counterexample: with post hashtags `["AI","ai","ML"]` and insight
keywords `["ai","robotics"]`, the derived output does NOT contain "ai" or
"ml" — both have length 2 and the filter keeps only length > 2 — so the
output set is not `\x7b"ai","ml","robotics"\x7d` as the claim states. -/
theorem extract_keywords_example_drops_short_keywords :
    "ai" ∉ extract_keywords_from_tweets
        [{ text := "t", likeCount := 0, retweetCount := 0, bookmarkCount := 0,
           author := "a", hashtags := ["AI", "ai", "ML"] }]
        (some { topics := [], trends := [], technologies := [], keywords := ["ai", "robotics"] })
      ∧ "ml" ∉ extract_keywords_from_tweets
        [{ text := "t", likeCount := 0, retweetCount := 0, bookmarkCount := 0,
           author := "a", hashtags := ["AI", "ai", "ML"] }]
        (some { topics := [], trends := [], technologies := [], keywords := ["ai", "robotics"] }) := by
  decide

/-- C5 (amended): with post hashtags `["AI","ai","ML"]` and insight keywords
`["ai","robotics"]`, the derived keyword set is exactly `\x7b"robotics"\x7d`:
after lower-casing and deduplication, "ai" and "ml" (length 2) are dropped
by the length > 2 filter and only "robotics" survives. -/
theorem extract_keywords_example :
    extract_keywords_from_tweets
        [{ text := "t", likeCount := 0, retweetCount := 0, bookmarkCount := 0,
           author := "a", hashtags := ["AI", "ai", "ML"] }]
        (some { topics := [], trends := [], technologies := [], keywords := ["ai", "robotics"] })
      = ["robotics"] := by
  decide

/-- C6: for every post list and insight bundle, every derived keyword has
length strictly between 2 and 50, is lower-cased (fixed by `pyLower`),
appears at most once, and the output has at most 20 entries. -/
theorem extract_keywords_wellformed (tweets : List Tweet)
    (claude_analysis : Option InsightBundle) :
    (∀ s ∈ extract_keywords_from_tweets tweets claude_analysis,
        2 < s.length ∧ s.length < 50 ∧ pyLower s = s) ∧
      (extract_keywords_from_tweets tweets claude_analysis).Nodup ∧
      (extract_keywords_from_tweets tweets claude_analysis).length ≤ 20 := by
  have hbase :
      ∀ (ws : List String), ws.Nodup → (∀ x ∈ ws, pyLower x = x) →
        (∀ s ∈ (ws.filter (fun k => decide (2 < k.length) && decide (k.length < 50))).take 20,
            2 < s.length ∧ s.length < 50 ∧ pyLower s = s) ∧
          ((ws.filter (fun k => decide (2 < k.length) && decide (k.length < 50))).take 20).Nodup ∧
          ((ws.filter (fun k => decide (2 < k.length) && decide (k.length < 50))).take 20).length ≤ 20 := by
    intro ws hnd hlow
    refine ⟨?_, ?_, ?_⟩
    · intro s hs
      have hsf := List.mem_of_mem_take hs
      have hmem := List.mem_filter.mp hsf
      have hlen := hmem.2
      simp only [Bool.and_eq_true, decide_eq_true_eq] at hlen
      exact ⟨hlen.1, hlen.2, hlow s hmem.1⟩
    · exact (List.take_sublist _ _).nodup (hnd.filter _)
    · exact List.length_take_le _ _
  unfold extract_keywords_from_tweets
  cases claude_analysis with
  | none =>
    exact hbase _
      (nodup_foldl_addLowered _ tweets [] List.nodup_nil)
      (lowered_foldl_addLowered _ tweets [] (by intro x hx; cases hx))
  | some a =>
    refine hbase _ ?_ ?_
    · exact nodup_addLowered _ _ (nodup_addLowered _ _ (nodup_addLowered _ _
        (nodup_foldl_addLowered _ tweets [] List.nodup_nil)))
    · exact lowered_addLowered _ _ (lowered_addLowered _ _ (lowered_addLowered _ _
        (lowered_foldl_addLowered _ tweets [] (by intro x hx; cases hx))))

/-- Witness for C6 at a concrete input and member. -/
theorem extract_keywords_wellformed_witness :
    2 < ("robotics" : String).length ∧ ("robotics" : String).length < 50 ∧
      pyLower "robotics" = "robotics" :=
  (extract_keywords_wellformed
      [{ text := "t", likeCount := 0, retweetCount := 0, bookmarkCount := 0,
         author := "a", hashtags := ["Robotics"] }] none).1
    "robotics" (by decide)

/-- C7: for every non-empty post list and any insight bundle and keyword
records, `process_tweets` is total (the embedding is a total function) and
its `summary.total_tweets` is the length of the full input list. -/
theorem process_tweets_total_tweets (tweets : List Tweet)
    (claude_analysis : Option InsightBundle) (dataforseo_keywords : List KeywordRecord)
    (hne : tweets ≠ []) :
    (process_tweets tweets claude_analysis dataforseo_keywords).summary.total_tweets
      = tweets.length :=
  rfl

/-- Witness for C7 at a concrete input. -/
theorem process_tweets_total_tweets_witness :
    (process_tweets
        [{ text := "t", likeCount := 3, retweetCount := 1, bookmarkCount := 0,
           author := "a", hashtags := ["x"] }] none []).summary.total_tweets = 1 :=
  process_tweets_total_tweets _ none [] (by decide)

/-- C2 counterexample: one keyword item of a DataForSEO response. -/
def dfsItem0 : DFSItemEntry :=
  { keyword := some "ai trends"
    keyword_info := some { search_volume := some 10, competition := none, cpc := none }
    keyword_properties := none }

/-- C2 counterexample: a DataForSEO response used to show the call is NOT
skipped when credentials are unset. -/
def dfsResp0 : DFSResponse :=
  { tasks := some [{ result := some [{ items := some [dfsItem0] }] }] }

/-- C2 counterexample: with `DATAFORSEO_LOGIN` unset (`none`) and a
non-empty keyword list, the guard `DATAFORSEO_LOGIN == "your_email@example.com"`
is False, so the request IS issued and its payload is used — the claim that
unset credentials skip the call and return an empty sequence is false. -/
theorem dataforseo_no_skip_when_unset :
    (analyze_keywords_with_dataforseo none ["ai"] (some dfsResp0)).2 = true ∧
      (analyze_keywords_with_dataforseo none ["ai"] (some dfsResp0)).1 ≠ [] := by
  decide

/-- C2 (amended): the scoring stage skips the external call (returning `[]`
with no request issued) only when the login equals the placeholder
`"your_email@example.com"`; with unset credentials the request is still
issued, and if that call fails the stage returns `[]` without raising. -/
theorem dataforseo_guard (login : Option String) (keywords : List String)
    (response : Option DFSResponse) :
    (keywords ≠ [] → login = some "your_email@example.com" →
        analyze_keywords_with_dataforseo login keywords response = ([], false)) ∧
      (keywords ≠ [] → login ≠ some "your_email@example.com" →
        (analyze_keywords_with_dataforseo login keywords response).2 = true) ∧
      (keywords ≠ [] → login = none → response = none →
        analyze_keywords_with_dataforseo login keywords response = ([], true)) := by
  refine ⟨?_, ?_, ?_⟩
  · intro hk hl
    unfold analyze_keywords_with_dataforseo
    rw [if_neg hk, if_pos hl]
  · intro hk hl
    unfold analyze_keywords_with_dataforseo
    rw [if_neg hk, if_neg hl]
    cases response with
    | none => rfl
    | some resp => rfl
  · intro hk hl hr
    subst hl
    subst hr
    unfold analyze_keywords_with_dataforseo
    rw [if_neg hk, if_neg (by simp : ¬ (none : Option String) = some "your_email@example.com")]

/-- Witness for C2 (amended) at a concrete input: the placeholder login
skips the call. -/
theorem dataforseo_guard_witness :
    analyze_keywords_with_dataforseo (some "your_email@example.com") ["ai"] none
      = ([], false) :=
  (dataforseo_guard (some "your_email@example.com") ["ai"] none).1 (by decide) rfl

/-- C8 example: an LLM reply with prose around an embedded JSON object. -/
def exampleReply : String :=
  "Sure! Here is the JSON you asked for: \x7b\"topics\":[\"x\"]\x7d Hope it helps."

/-- C8 example: the embedded JSON object itself. -/
def exampleJson : String := "\x7b\"topics\":[\"x\"]\x7d"

/-- C8: the reply-parsing policy of `analyze_with_claude`: a failed call
yields the empty dict; a reply with no first-`\x7b`/last-`\x7d` pair (the
`}` strictly after the `\x7b`) yields `raw_response` with the full text; with
such a pair, the inclusive substring between them is handed to the JSON
parser — parse failure yields `raw_response` with the full text, success
returns the parsed mapping unchanged; and on the concrete prose-wrapped
reply the extracted substring is exactly the embedded object, whose parse
is returned unchanged. -/
theorem claude_parse_policy {μ : Type} (jsonLoads : String → Option μ) (content : String) :
    (analyze_with_claude jsonLoads none = ClaudeOutcome.emptyDict) ∧
      (¬ (0 ≤ pyFind content lbrace ∧
            pyFind content lbrace < pyRFind content rbrace + 1) →
        analyze_with_claude jsonLoads (some content) = ClaudeOutcome.rawResponse content) ∧
      (0 ≤ pyFind content lbrace → pyFind content lbrace < pyRFind content rbrace + 1 →
        jsonLoads (pySlice content (pyFind content lbrace).toNat
            (pyRFind content rbrace + 1).toNat) = none →
        analyze_with_claude jsonLoads (some content) = ClaudeOutcome.rawResponse content) ∧
      (∀ m, 0 ≤ pyFind content lbrace → pyFind content lbrace < pyRFind content rbrace + 1 →
        jsonLoads (pySlice content (pyFind content lbrace).toNat
            (pyRFind content rbrace + 1).toNat) = some m →
        analyze_with_claude jsonLoads (some content) = ClaudeOutcome.parsed m) ∧
      (pySlice exampleReply (pyFind exampleReply lbrace).toNat
          (pyRFind exampleReply rbrace + 1).toNat = exampleJson) ∧
      (∀ m, jsonLoads exampleJson = some m →
        analyze_with_claude jsonLoads (some exampleReply) = ClaudeOutcome.parsed m) := by
  refine ⟨rfl, ?_, ?_, ?_, by decide, ?_⟩
  · intro h
    simp only [analyze_with_claude, parseClaudeReply]
    rw [if_neg h]
  · intro h1 h2 hparse
    simp only [analyze_with_claude, parseClaudeReply]
    rw [if_pos ⟨h1, h2⟩, hparse]
  · intro m h1 h2 hparse
    simp only [analyze_with_claude, parseClaudeReply]
    rw [if_pos ⟨h1, h2⟩, hparse]
  · intro m hm
    have hcond : (0 : Int) ≤ pyFind exampleReply lbrace ∧
        pyFind exampleReply lbrace < pyRFind exampleReply rbrace + 1 := by decide
    have hslice : pySlice exampleReply (pyFind exampleReply lbrace).toNat
        (pyRFind exampleReply rbrace + 1).toNat = exampleJson := by decide
    simp only [analyze_with_claude, parseClaudeReply]
    rw [if_pos hcond, hslice, hm]

/-- C8 witness: a concrete parser for the embedded object. -/
def jsonLoads0 : String → Option Nat :=
  fun s => if s = exampleJson then some 7 else none

/-- Witness for C8 at a concrete input. -/
theorem claude_parse_policy_witness :
    analyze_with_claude jsonLoads0 (some exampleReply) = ClaudeOutcome.parsed 7 :=
  (claude_parse_policy jsonLoads0 exampleReply).2.2.2.2.2 7 (by decide)

/-- C9 example input: P2 (likes=12, retweets=0) listed before P1
(likes=10, retweets=5). -/
def tws2 : List Tweet :=
  [{ text := "p2", likeCount := 12, retweetCount := 0, bookmarkCount := 0,
     author := "b", hashtags := [] },
   { text := "p1", likeCount := 10, retweetCount := 5, bookmarkCount := 0,
     author := "a", hashtags := [] }]

/-- C9 witness entry: P1 as it appears in the report (rank 2, score 20). -/
def ptw0 : ProcessedTweet :=
  { rank := 2, text := "p1",
    engagement := { likes := 10, retweets := 5, score := 20 },
    author := "a", hashtags := [] }

/-- C9: every entry of the ranked post list scores likes + 2·retweets, the
list is sorted descending by that score, each entry keeps the data of its post
with text truncated to 200 characters and hashtags capped to 5, and on the
concrete example P1 (score 20) ranks above P2 (score 12). -/
theorem process_tweets_ranking (tweets : List Tweet)
    (claude_analysis : Option InsightBundle) (dataforseo_keywords : List KeywordRecord) :
    ((process_tweets tweets claude_analysis dataforseo_keywords).top_trending_tweets.Pairwise
        (fun a b => b.engagement.score ≤ a.engagement.score)) ∧
      (∀ p ∈ (process_tweets tweets claude_analysis dataforseo_keywords).top_trending_tweets,
        p.engagement.score = p.engagement.likes + 2 * p.engagement.retweets ∧
          p.text.length ≤ 200 ∧ p.hashtags.length ≤ 5 ∧
          ∃ t ∈ tweets, p.engagement.likes = t.likeCount ∧
            p.engagement.retweets = t.retweetCount ∧
            p.text = pyTruncate 200 t.text ∧ p.hashtags = t.hashtags.take 5) ∧
      ((process_tweets tws2 none []).top_trending_tweets.map
        (fun p => (p.text, p.engagement.score)) = [("p1", 20), ("p2", 12)]) := by
  refine ⟨sortByDesc_pairwise _ _, ?_, by decide⟩
  intro p hp
  have hp' : p ∈ buildProcessed 0 (tweets.take 10) := mem_sortByDesc.mp hp
  obtain ⟨t, ht, j, rfl⟩ := mem_buildProcessed hp'
  refine ⟨?_, ?_, ?_, t, List.mem_of_mem_take ht, rfl, rfl, rfl, rfl⟩
  · show t.likeCount + t.retweetCount * 2 = t.likeCount + 2 * t.retweetCount
    omega
  · show (t.text.data.take 200).length ≤ 200
    exact List.length_take_le 200 t.text.data
  · show (t.hashtags.take 5).length ≤ 5
    exact List.length_take_le 5 t.hashtags

/-- Witness for C9 at a concrete input and member. -/
theorem process_tweets_ranking_witness :
    ptw0.engagement.score = ptw0.engagement.likes + 2 * ptw0.engagement.retweets ∧
      ptw0.text.length ≤ 200 ∧ ptw0.hashtags.length ≤ 5 ∧
      ∃ t ∈ tws2, ptw0.engagement.likes = t.likeCount ∧
        ptw0.engagement.retweets = t.retweetCount ∧
        ptw0.text = pyTruncate 200 t.text ∧ ptw0.hashtags = t.hashtags.take 5 :=
  (process_tweets_ranking tws2 none []).2.1 ptw0 (by decide)

/-- C4 counterexample: with 11 posts of one like each, the reported
`total_engagement` is 10 (only the first 10 posts are summed), while the sum
of the engagement scores of ALL posts is 11 — the claim about ALL posts fails. -/
theorem total_engagement_first_ten_only :
    (process_tweets (List.replicate 11
        { text := "", likeCount := 1, retweetCount := 0, bookmarkCount := 0,
          author := "", hashtags := [] }) none []).summary.total_engagement = 10 ∧
      ((List.replicate 11
        ({ text := "", likeCount := 1, retweetCount := 0, bookmarkCount := 0,
           author := "", hashtags := [] } : Tweet)).map
          (fun t => t.likeCount + 2 * t.retweetCount)).sum = 11 := by
  decide

/-- C4 (amended): `summary.total_engagement` is the sum of the derived
engagement scores (likes + 2·retweets) of the FIRST TEN posts of the input
(the loop runs over `tweets[:10]`); the other summary counters are the full
post count, the number of distinct hashtags among the first ten posts, and
the number of scored keyword records. -/
theorem process_tweets_summary (tweets : List Tweet)
    (claude_analysis : Option InsightBundle) (dataforseo_keywords : List KeywordRecord) :
    (process_tweets tweets claude_analysis dataforseo_keywords).summary.total_engagement
        = ((tweets.take 10).map (fun t => t.likeCount + 2 * t.retweetCount)).sum ∧
      (process_tweets tweets claude_analysis dataforseo_keywords).summary.total_tweets
        = tweets.length ∧
      (process_tweets tweets claude_analysis dataforseo_keywords).summary.unique_hashtags
        = ((tweets.take 10).flatMap (fun t => t.hashtags)).toFinset.card ∧
      (process_tweets tweets claude_analysis dataforseo_keywords).summary.keywords_analyzed
        = dataforseo_keywords.length := by
  refine ⟨?_, rfl, ?_, rfl⟩
  · show ((sortByDesc (fun p : ProcessedTweet => p.engagement.score)
        (buildProcessed 0 (tweets.take 10))).map (fun p => p.engagement.score)).sum = _
    have hperm := ((sortByDesc_perm (fun p : ProcessedTweet => p.engagement.score)
        (buildProcessed 0 (tweets.take 10))).map (fun p => p.engagement.score))
    rw [hperm.sum_eq, buildProcessed_map_score]
    have hfun : (fun t : Tweet => t.likeCount + t.retweetCount * 2)
        = fun t : Tweet => t.likeCount + 2 * t.retweetCount := funext fun t => by ring
    rw [hfun]
  · show (hashtagFreq ((tweets.take 10).flatMap (fun t => t.hashtags))).length = _
    exact length_hashtagFreq _

/-- Witness for C4 (amended): the counterexample input, through the theorem. -/
theorem process_tweets_summary_witness :
    (process_tweets (List.replicate 11
        { text := "", likeCount := 1, retweetCount := 0, bookmarkCount := 0,
          author := "", hashtags := [] }) none []).summary.total_engagement
      = (((List.replicate 11
        ({ text := "", likeCount := 1, retweetCount := 0, bookmarkCount := 0,
           author := "", hashtags := [] } : Tweet)).take 10).map
          (fun t => t.likeCount + 2 * t.retweetCount)).sum :=
  (process_tweets_summary (List.replicate 11
      { text := "", likeCount := 1, retweetCount := 0, bookmarkCount := 0,
        author := "", hashtags := [] }) none []).1

/-- C3 counterexample: with 11 posts each tagged "x", the reported hashtag
table records 10 mentions (only the first 10 posts are scanned), while the
count across the hashtag lists of ALL posts is 11 — the claim about ALL
posts fails. -/
theorem hashtag_count_first_ten_only :
    (process_tweets (List.replicate 11
        { text := "", likeCount := 0, retweetCount := 0, bookmarkCount := 0,
          author := "", hashtags := ["x"] }) none []).top_hashtags
      = [{ tag := "x", mentions := 10 }] ∧
      ((List.replicate 11
        ({ text := "", likeCount := 0, retweetCount := 0, bookmarkCount := 0,
           author := "", hashtags := ["x"] } : Tweet)).flatMap
          (fun t => t.hashtags)).count "x" = 11 := by
  decide

/-- C3 (amended): the hashtag-frequency table counts occurrences across the
hashtag lists of the FIRST TEN posts (the loop runs over `tweets[:10]`);
`top_hashtags` holds at most 10 entries, sorted descending by count, whose
counts are true frequencies over those posts, every tag left out has a
count no larger than any retained entry, and `summary.unique_hashtags` is
the number of distinct tags so counted. -/
theorem process_tweets_hashtag_table (tweets : List Tweet)
    (claude_analysis : Option InsightBundle) (dataforseo_keywords : List KeywordRecord) :
    (∀ e ∈ (process_tweets tweets claude_analysis dataforseo_keywords).top_hashtags,
        e.mentions = ((tweets.take 10).flatMap (fun t => t.hashtags)).count e.tag) ∧
      ((process_tweets tweets claude_analysis dataforseo_keywords).top_hashtags.Pairwise
        (fun a b => b.mentions ≤ a.mentions)) ∧
      ((process_tweets tweets claude_analysis dataforseo_keywords).top_hashtags.length ≤ 10) ∧
      ((process_tweets tweets claude_analysis dataforseo_keywords).summary.unique_hashtags
        = ((tweets.take 10).flatMap (fun t => t.hashtags)).toFinset.card) ∧
      (∀ tag ∈ (tweets.take 10).flatMap (fun t => t.hashtags),
        (∀ e ∈ (process_tweets tweets claude_analysis dataforseo_keywords).top_hashtags,
          e.tag ≠ tag) →
        ∀ e ∈ (process_tweets tweets claude_analysis dataforseo_keywords).top_hashtags,
          ((tweets.take 10).flatMap (fun t => t.hashtags)).count tag ≤ e.mentions) := by
  have htop : (process_tweets tweets claude_analysis dataforseo_keywords).top_hashtags
      = ((sortByDesc (fun p : String × Nat => p.2)
          (hashtagFreq ((tweets.take 10).flatMap (fun t => t.hashtags)))).take 10).map
        (fun p => { tag := p.1, mentions := p.2 }) := rfl
  refine ⟨?_, ?_, ?_, ?_, ?_⟩
  · intro e he
    rw [htop] at he
    obtain ⟨pr, hpr, rfl⟩ := List.mem_map.mp he
    obtain ⟨tag, c⟩ := pr
    have hmem : (tag, c) ∈ hashtagFreq ((tweets.take 10).flatMap (fun t => t.hashtags)) :=
      mem_sortByDesc.mp (List.mem_of_mem_take hpr)
    have hc := freqCount_of_mem (nodup_keysOf_hashtagFreq _) hmem
    rw [freqCount_hashtagFreq] at hc
    exact hc.symm
  · rw [htop]
    rw [List.pairwise_map]
    exact ((sortByDesc_pairwise (fun p : String × Nat => p.2) _).sublist
      (List.take_sublist _ _))
  · rw [htop, List.length_map]
    exact List.length_take_le _ _
  · show (hashtagFreq ((tweets.take 10).flatMap (fun t => t.hashtags))).length = _
    exact length_hashtagFreq _
  · intro tag htag hout e he
    have hkey : tag ∈ keysOf (hashtagFreq ((tweets.take 10).flatMap (fun t => t.hashtags))) :=
      mem_keysOf_hashtagFreq.mpr htag
    obtain ⟨pr, hpr, hfst⟩ := List.mem_map.mp hkey
    obtain ⟨tag', c⟩ := pr
    cases hfst
    have hc := freqCount_of_mem (nodup_keysOf_hashtagFreq _) hpr
    rw [freqCount_hashtagFreq] at hc
    have hsorted : (tag', c) ∈ sortByDesc (fun p : String × Nat => p.2)
        (hashtagFreq ((tweets.take 10).flatMap (fun t => t.hashtags))) :=
      mem_sortByDesc.mpr hpr
    have hsplit := List.take_append_drop 10 (sortByDesc (fun p : String × Nat => p.2)
        (hashtagFreq ((tweets.take 10).flatMap (fun t => t.hashtags))))
    have hnotin : (tag', c) ∉ (sortByDesc (fun p : String × Nat => p.2)
        (hashtagFreq ((tweets.take 10).flatMap (fun t => t.hashtags)))).take 10 := by
      intro hin
      exact hout { tag := tag', mentions := c } (by
        rw [htop]
        exact List.mem_map_of_mem _ hin) rfl
    have hdrop : (tag', c) ∈ (sortByDesc (fun p : String × Nat => p.2)
        (hashtagFreq ((tweets.take 10).flatMap (fun t => t.hashtags)))).drop 10 := by
      rcases (List.mem_append.mp (hsplit ▸ hsorted)) with h | h
      · exact absurd h hnotin
      · exact h
    rw [htop] at he
    obtain ⟨pr2, hpr2, rfl⟩ := List.mem_map.mp he
    have hle := sorted_drop_le_take (sortByDesc_pairwise (fun p : String × Nat => p.2) _)
      10 (tag', c) hdrop pr2 hpr2
    have hle' : c ≤ pr2.2 := hle
    show ((tweets.take 10).flatMap (fun t => t.hashtags)).count tag' ≤ pr2.2
    rw [hc]
    exact hle'

/-- Witness for C3 (amended): the counterexample input, through the theorem. -/
theorem process_tweets_hashtag_table_witness :
    ({ tag := "x", mentions := 10 } : HashtagEntry).mentions
      = (((List.replicate 11
        ({ text := "", likeCount := 0, retweetCount := 0, bookmarkCount := 0,
           author := "", hashtags := ["x"] } : Tweet)).take 10).flatMap
          (fun t => t.hashtags)).count ({ tag := "x", mentions := 10 } : HashtagEntry).tag :=
  (process_tweets_hashtag_table (List.replicate 11
      { text := "", likeCount := 0, retweetCount := 0, bookmarkCount := 0,
        author := "", hashtags := ["x"] }) none []).1
    { tag := "x", mentions := 10 } (by decide)

/-- C1 counterexample record: volume 3, competition 0.5. -/
def kwHalf : KeywordRecord :=
  { keyword := some "k", search_volume := some 3, competition := some (1/2),
    cpc := none, difficulty := none }

/-- C1/C10 witness record: volume 500, competition unknown. -/
def kw500 : KeywordRecord :=
  { keyword := some "seo", search_volume := some 500, competition := none,
    cpc := none, difficulty := none }

/-- C1 counterexample: the code computes `int(volume * (1 - competition))`
(truncation), not `round(...)`: for volume 3, competition 0.5 the stored
opportunity score is 1, while `round(3 * 0.5)` from the claim is 2. -/
theorem opportunity_truncates_not_rounds :
    (process_tweets [] none [kwHalf]).seo_analysis.all_keyword_data
        = [{ base := kwHalf, opportunity_score := some 1 }] ∧
      pyRound ((3 : Rat) * (1 - 1 / 2)) = 2 := by
  constructor
  · with_unfolding_all decide
  · with_unfolding_all decide

/-- C1 (amended): a record whose volume is ≤ 0 or missing never reaches
`best_opportunities` but is retained in `all_keyword_data`; a record with
positive volume gets opportunity = volume when competition is unknown or
≥ 1.0 and `int(volume * (1 - competition))` (truncation toward zero, not
`round`) when competition < 1.0 — in particular volume=1000,
competition=0.4 gives 600 and volume=500, competition=None gives 500 — and
`best_opportunities` is the top 10 of the positive-volume records by
descending opportunity score. -/
theorem process_tweets_opportunity (tweets : List Tweet)
    (claude_analysis : Option InsightBundle) (dataforseo_keywords : List KeywordRecord) :
    (∀ kw ∈ dataforseo_keywords, scoreRecord kw ∈
        (process_tweets tweets claude_analysis dataforseo_keywords).seo_analysis.all_keyword_data) ∧
      (∀ s ∈ (process_tweets tweets claude_analysis
          dataforseo_keywords).seo_analysis.best_opportunities, 0 < volumeOf s.base) ∧
      (∀ kw ∈ dataforseo_keywords, 0 < volumeOf kw →
        (scoreRecord kw).opportunity_score
          = some (opportunityScore (volumeOf kw) kw.competition)) ∧
      (∀ v : Int, opportunityScore v none = v) ∧
      (∀ (v : Int) (c : Rat), 1 ≤ c → opportunityScore v (some c) = v) ∧
      (∀ (v : Int) (c : Rat), c < 1 →
        opportunityScore v (some c) = pyInt ((v : Rat) * (1 - c))) ∧
      (opportunityScore 1000 (some (2 / 5)) = 600 ∧ opportunityScore 500 none = 500) ∧
      ((process_tweets tweets claude_analysis
          dataforseo_keywords).seo_analysis.best_opportunities.Pairwise
        (fun a b => b.opportunity_score.getD 0 ≤ a.opportunity_score.getD 0)) ∧
      ((process_tweets tweets claude_analysis
          dataforseo_keywords).seo_analysis.best_opportunities.length ≤ 10) ∧
      (∀ s ∈ (process_tweets tweets claude_analysis
          dataforseo_keywords).seo_analysis.best_opportunities,
        s ∈ (process_tweets tweets claude_analysis
          dataforseo_keywords).seo_analysis.all_keyword_data) ∧
      (∀ s ∈ (process_tweets tweets claude_analysis
          dataforseo_keywords).seo_analysis.all_keyword_data, 0 < volumeOf s.base →
        s ∉ (process_tweets tweets claude_analysis
          dataforseo_keywords).seo_analysis.best_opportunities →
        ∀ b ∈ (process_tweets tweets claude_analysis
          dataforseo_keywords).seo_analysis.best_opportunities,
          s.opportunity_score.getD 0 ≤ b.opportunity_score.getD 0) := by
  have hbest : (process_tweets tweets claude_analysis
      dataforseo_keywords).seo_analysis.best_opportunities
      = (bestKeywords dataforseo_keywords).take 10 := rfl
  have hall : (process_tweets tweets claude_analysis
      dataforseo_keywords).seo_analysis.all_keyword_data
      = scoredRecords dataforseo_keywords := rfl
  have hmemfilter : ∀ s ∈ (bestKeywords dataforseo_keywords).take 10,
      s ∈ (scoredRecords dataforseo_keywords).filter
        (fun s => decide (0 < volumeOf s.base)) := by
    intro s hs
    exact mem_sortByDesc.mp (List.mem_of_mem_take hs)
  refine ⟨?_, ?_, ?_, fun v => rfl, ?_, ?_, ?_, ?_, ?_, ?_, ?_⟩
  · intro kw hkw
    rw [hall]
    exact List.mem_map_of_mem scoreRecord hkw
  · intro s hs
    rw [hbest] at hs
    have := (List.mem_filter.mp (hmemfilter s hs)).2
    simpa using this
  · intro kw _ hv
    unfold scoreRecord
    rw [if_pos hv]
  · intro v c hc
    show (if c < 1 then pyInt ((v : Rat) * (1 - c)) else v) = v
    rw [if_neg (not_lt.mpr hc)]
  · intro v c hc
    show (if c < 1 then pyInt ((v : Rat) * (1 - c)) else v) = pyInt ((v : Rat) * (1 - c))
    rw [if_pos hc]
  · constructor
    · with_unfolding_all decide
    · rfl
  · rw [hbest]
    exact (sortByDesc_pairwise _ _).sublist (List.take_sublist _ _)
  · rw [hbest]
    exact List.length_take_le _ _
  · intro s hs
    rw [hbest] at hs
    rw [hall]
    exact (List.mem_filter.mp (hmemfilter s hs)).1
  · intro s hs hv hout b hb
    rw [hall] at hs
    rw [hbest] at hout hb
    have hfil : s ∈ (scoredRecords dataforseo_keywords).filter
        (fun s => decide (0 < volumeOf s.base)) :=
      List.mem_filter.mpr ⟨hs, by simpa using hv⟩
    have hsort : s ∈ bestKeywords dataforseo_keywords :=
      mem_sortByDesc.mpr hfil
    have hsplit := List.take_append_drop 10 (bestKeywords dataforseo_keywords)
    have hdrop : s ∈ (bestKeywords dataforseo_keywords).drop 10 := by
      rcases List.mem_append.mp (hsplit ▸ hsort) with h | h
      · exact absurd h hout
      · exact h
    exact sorted_drop_le_take (sortByDesc_pairwise _ _) 10 s hdrop b hb

/-- Witness for C1 (amended): a positive-volume record with unknown
competition carries opportunity = volume. -/
theorem process_tweets_opportunity_witness :
    (scoreRecord kw500).opportunity_score
      = some (opportunityScore (volumeOf kw500) kw500.competition) :=
  (process_tweets_opportunity [] none [kw500]).2.2.1 kw500 (by decide) (by decide)

/-- C10: every input record reappears in `all_keyword_data` as the same
record with the `opportunity_score` key added exactly when its volume is
positive (set to the computed score), and absent when volume ≤ 0; the
entries of `best_opportunities` are among those same records. -/
theorem process_tweets_scores_in_place (tweets : List Tweet)
    (claude_analysis : Option InsightBundle) (dataforseo_keywords : List KeywordRecord) :
    (∀ kw ∈ dataforseo_keywords, 0 < volumeOf kw →
        ({ base := kw,
           opportunity_score := some (opportunityScore (volumeOf kw) kw.competition) }
            : ScoredKeywordRecord)
          ∈ (process_tweets tweets claude_analysis
              dataforseo_keywords).seo_analysis.all_keyword_data) ∧
      (∀ kw ∈ dataforseo_keywords, volumeOf kw ≤ 0 →
        ({ base := kw, opportunity_score := none } : ScoredKeywordRecord)
          ∈ (process_tweets tweets claude_analysis
              dataforseo_keywords).seo_analysis.all_keyword_data) ∧
      (∀ s ∈ (process_tweets tweets claude_analysis
          dataforseo_keywords).seo_analysis.all_keyword_data,
        ∃ kw ∈ dataforseo_keywords, s = scoreRecord kw ∧
          (0 < volumeOf kw →
            s.opportunity_score = some (opportunityScore (volumeOf kw) kw.competition)) ∧
          (volumeOf kw ≤ 0 → s.opportunity_score = none)) ∧
      (∀ s ∈ (process_tweets tweets claude_analysis
          dataforseo_keywords).seo_analysis.best_opportunities,
        s ∈ (process_tweets tweets claude_analysis
          dataforseo_keywords).seo_analysis.all_keyword_data) := by
  have hall : (process_tweets tweets claude_analysis
      dataforseo_keywords).seo_analysis.all_keyword_data
      = scoredRecords dataforseo_keywords := rfl
  have hbest : (process_tweets tweets claude_analysis
      dataforseo_keywords).seo_analysis.best_opportunities
      = (bestKeywords dataforseo_keywords).take 10 := rfl
  refine ⟨?_, ?_, ?_, ?_⟩
  · intro kw hkw hv
    rw [hall]
    have h1 : scoreRecord kw
        = { base := kw,
            opportunity_score := some (opportunityScore (volumeOf kw) kw.competition) } := by
      unfold scoreRecord
      rw [if_pos hv]
    exact h1 ▸ List.mem_map_of_mem scoreRecord hkw
  · intro kw hkw hv
    rw [hall]
    have h1 : scoreRecord kw = { base := kw, opportunity_score := none } := by
      unfold scoreRecord
      rw [if_neg (not_lt.mpr hv)]
    exact h1 ▸ List.mem_map_of_mem scoreRecord hkw
  · intro s hs
    rw [hall] at hs
    obtain ⟨kw, hkw, rfl⟩ := List.mem_map.mp hs
    refine ⟨kw, hkw, rfl, ?_, ?_⟩
    · intro hv
      unfold scoreRecord
      rw [if_pos hv]
    · intro hv
      unfold scoreRecord
      rw [if_neg (not_lt.mpr hv)]
  · intro s hs
    rw [hbest] at hs
    rw [hall]
    exact (List.mem_filter.mp (mem_sortByDesc.mp (List.mem_of_mem_take hs))).1

/-- Witness for C10: the volume-500 record reappears scored in
`all_keyword_data`. -/
theorem process_tweets_scores_in_place_witness :
    ({ base := kw500,
       opportunity_score := some (opportunityScore (volumeOf kw500) kw500.competition) }
        : ScoredKeywordRecord)
      ∈ (process_tweets [] none [kw500]).seo_analysis.all_keyword_data :=
  (process_tweets_scores_in_place [] none [kw500]).1 kw500 (by decide) (by decide)

end SEOKeywords
